import Mathlib

/-!
Verification of the natural-language specification of the
`claude-code-skills` repository against its Python sources.

The repository's five scripts are shallowly embedded below:
* `src/skills/requirements-design/scripts/sharepoint-access.py`
  (`SharePointAccess._parse_url`),
* `src/build.py` (archive builder),
* `src/skills/requirements-design/scripts/convert-docs-to-md.py`
  (document converter),
* `src/skills/agile-board/scripts/setup.py` (setup wizard).

Pure string/list logic is translated function-by-function; the behaviour of
Python standard-library calls (`urllib.parse.urlparse`, `urllib.parse.unquote`,
`str.split`, `str.strip`, `int`, list indexing) is embedded to match CPython
semantics on the inputs the theorems use (ASCII data; both `ValueError`
paths of CPython 3.11's `urlsplit` on the netloc — unbalanced brackets and
the 3.11.4+ `_check_bracketed_host` validation of bracketed hosts, including
`ipaddress` IPv6/IPvFuture parsing — are embedded, while the NFKC-confusable
netloc check, which only concerns non-ASCII authorities, is out of scope and
the corresponding theorems carry an ASCII hypothesis).
File-system and network effects are embedded as explicit state passing; a
Python exception escaping a function is embedded as `Option`/`Except`
failure.
-/

namespace SkillsRepo

/-! ## Python string primitives -/

/-- Whitespace characters stripped by Python `str.strip()` (ASCII range). -/
def pyWs (c : Char) : Bool :=
  c = ' ' || c = '\t' || c = '\n' || c = '\r' || c = '\x0b' || c = '\x0c'

/-- Python `str.strip()` on ASCII whitespace. -/
def pyStrip (s : String) : String :=
  (((s.toList.dropWhile pyWs).reverse.dropWhile pyWs).reverse).asString

/-- First index at which the pattern `sep` occurs as a contiguous sublist,
`none` if it does not occur (Python `str.find` restricted to found/not-found). -/
def findSub (sep : List Char) : List Char → Option Nat
  | [] => if sep = [] then some 0 else none
  | c :: rest =>
    if sep.isPrefixOf (c :: rest) then some 0
    else (findSub sep rest).map (· + 1)

/-- Whether `sep` occurs in `l` (Python `sep in l`). -/
def containsSub (sep l : List Char) : Bool := (findSub sep l).isSome

/-- Everything after the first occurrence of `sep`, `none` if absent
(the tail of Python `l.split(sep)[1:]` re-joined). -/
def afterFirstSub (sep l : List Char) : Option (List Char) :=
  (findSub sep l).map (fun i => l.drop (i + sep.length))

/-- Everything before the first occurrence of `sep`, the whole list if absent
(Python `l.split(sep)[0]`). -/
def takeUntilSub (sep l : List Char) : List Char :=
  match findSub sep l with
  | none => l
  | some i => l.take i

/-- Python `l.split(sep, 1)`: at most one split, at the first occurrence. -/
def pySplit1 (sep l : List Char) : List (List Char) :=
  match findSub sep l with
  | none => [l]
  | some i => [l.take i, l.drop (i + sep.length)]

/-- Python `l.split(sep, maxsplit)` for a bounded `maxsplit`. -/
def pySplitMax (sep : List Char) : Nat → List Char → List (List Char)
  | 0, l => [l]
  | Nat.succ m, l =>
    match findSub sep l with
    | none => [l]
    | some i => l.take i :: pySplitMax sep m (l.drop (i + sep.length))

/-- Python `'/'.join(parts)`. -/
def joinSlash : List (List Char) → List Char
  | [] => []
  | [x] => x
  | x :: xs => x ++ '/' :: joinSlash xs

/-! ## `urllib.parse` primitives used by `_parse_url` -/

/-- Hex digit value, `none` for non-hex characters. -/
def hexVal (c : Char) : Option Nat :=
  if '0' ≤ c ∧ c ≤ '9' then some (c.toNat - '0'.toNat)
  else if 'a' ≤ c ∧ c ≤ 'f' then some (c.toNat - 'a'.toNat + 10)
  else if 'A' ≤ c ∧ c ≤ 'F' then some (c.toNat - 'A'.toNat + 10)
  else none

/-- `urllib.parse.unquote`: decode `%XX` escapes, leaving malformed escapes
verbatim.  Each decoded byte is mapped to the code point of the same value
(this coincides with CPython on ASCII escapes, the only ones appearing in the
claims). -/
def unquoteL : List Char → List Char
  | '%' :: a :: b :: rest =>
    match hexVal a, hexVal b with
    | some ha, some hb => Char.ofNat (16 * ha + hb) :: unquoteL rest
    | _, _ => '%' :: unquoteL (a :: b :: rest)
  | c :: rest => c :: unquoteL rest
  | [] => []

/-- WHATWG C0-control-or-space class stripped from the left of a URL by
`urlsplit`. -/
def c0OrSpace (c : Char) : Bool := c.toNat ≤ 32

/-- `urlsplit` preprocessing: left-strip C0 controls and spaces, then remove
every tab, carriage return and newline. -/
def cleanUrl (l : List Char) : List Char :=
  (l.dropWhile c0OrSpace).filter (fun c => !(c = '\t' || c = '\r' || c = '\n'))

/-- Characters permitted in a URL scheme (`urllib.parse.scheme_chars`). -/
def schemeOk (c : Char) : Bool := c.isAlphanum || c = '+' || c = '-' || c = '.'

/-- Drop a leading `scheme:` if present and well-formed, as `urlsplit` does. -/
def dropScheme (l : List Char) : List Char :=
  let i := l.findIdx (· = ':')
  if i = 0 ∨ l.length ≤ i then l
  else
    match l.head? with
    | some c => if c.isAlpha ∧ (l.take i).all schemeOk then l.drop (i + 1) else l
    | none => l

/-- `urlsplit` netloc extraction: if the (scheme-stripped) URL starts with
`//`, the netloc runs to the first `/`, `?` or `#`; the rest keeps the
delimiter. -/
def netlocSplit (l : List Char) : List Char × List Char :=
  if l.take 2 = ['/', '/'] then
    let rest := l.drop 2
    (rest.takeWhile (fun c => !(c = '/' || c = '?' || c = '#')),
     rest.dropWhile (fun c => !(c = '/' || c = '?' || c = '#')))
  else ([], l)

/-- The unbalanced-square-bracket condition on which `urlsplit` raises
`ValueError("Invalid IPv6 URL")`. -/
def bracketBad (netloc : List Char) : Bool :=
  ('[' ∈ netloc && !(']' ∈ netloc)) || (']' ∈ netloc && !('[' ∈ netloc))

/-- `ipaddress._parse_octet` (CPython 3.11): one to three ASCII digits, value
at most 255, no leading zeros. -/
def parseOctet (l : List Char) : Option Nat :=
  if l = [] then Option.none
  else if !l.all Char.isDigit then Option.none
  else if 3 < l.length then Option.none
  else
    let v := l.foldl (fun a c => a * 10 + (c.toNat - 48)) 0
    if 255 < v then Option.none
    else if 1 < l.length ∧ l.head? = some '0' then Option.none
    else some v

/-- `ipaddress.IPv4Address._ip_int_from_string`: exactly four valid octets. -/
def ipv4Int (l : List Char) : Option Nat :=
  if l = [] then Option.none
  else
    match (l.splitOn '.').mapM parseOctet with
    | some [a, b, c, d] => some (((a * 256 + b) * 256 + c) * 256 + d)
    | _ => Option.none

/-- `ipaddress._BaseV6._parse_hextet`: one to four hex digits. -/
def parseHextet (l : List Char) : Option Nat :=
  if !l.all (fun c => (hexVal c).isSome) then Option.none
  else if 4 < l.length then Option.none
  else if l = [] then Option.none
  else some (l.foldl (fun a c => a * 16 + ((hexVal c).getD 0)) 0)

/-- A single lowercase hex digit. -/
def hexDigitChar (n : Nat) : Char :=
  if n < 10 then Char.ofNat (48 + n) else Char.ofNat (87 + n)

/-- Python `'%x' % n` for `n < 65536` (used when an IPv4 suffix is rewritten
into two hextets). -/
def hexDigitsOf16 (n : Nat) : List Char :=
  if n < 16 then [hexDigitChar (n % 16)]
  else if n < 256 then [hexDigitChar (n / 16 % 16), hexDigitChar (n % 16)]
  else if n < 4096 then
    [hexDigitChar (n / 256 % 16), hexDigitChar (n / 16 % 16), hexDigitChar (n % 16)]
  else
    [hexDigitChar (n / 4096 % 16), hexDigitChar (n / 256 % 16),
     hexDigitChar (n / 16 % 16), hexDigitChar (n % 16)]

/-- `ipaddress._BaseV6._ip_int_from_string` as a validity test: colon parts,
optional IPv4 suffix rewritten to two hextets, at most one internal `::`
(with the leading/trailing-colon rules), and every remaining part a valid
hextet. -/
def ipv6Valid (l : List Char) : Bool :=
  if l = [] then false
  else
    let parts0 := l.splitOn ':'
    if parts0.length < 3 then false
    else
      match (match parts0.getLast? with
             | some last =>
               if '.' ∈ last then
                 (ipv4Int last).map (fun v =>
                   parts0.dropLast
                     ++ [hexDigitsOf16 ((v >>> 16) &&& 65535),
                         hexDigitsOf16 (v &&& 65535)])
               else some parts0
             | Option.none => some parts0) with
      | Option.none => false
      | some parts =>
        if 9 < parts.length then false
        else
          let n := parts.length
          let skips := (parts.enum.filter
            (fun p => 0 < p.1 && p.1 < n - 1 && p.2 = ([] : List Char))).map
              (fun p => p.1)
          match skips with
          | [] =>
            n = 8 && parts.head? ≠ some ([] : List Char)
              && parts.getLast? ≠ some ([] : List Char)
              && parts.all (fun p => (parseHextet p).isSome)
          | [i] =>
            let partsHi := if parts.head? = some ([] : List Char) then
                (if i = 1 then some 0 else Option.none)
              else some i
            let partsLo := if parts.getLast? = some ([] : List Char) then
                (if i = n - 2 then some 0 else Option.none)
              else some (n - i - 1)
            match partsHi, partsLo with
            | some hi, some lo =>
              hi + lo ≤ 7
                && (parts.take hi).all (fun p => (parseHextet p).isSome)
                && (parts.drop (n - lo)).all (fun p => (parseHextet p).isSome)
            | _, _ => false
          | _ => false

/-- `ipaddress.IPv6Address` with an optional `%scope_id` (CPython 3.9+): the
scope, split at the first `%`, must be nonempty and `%`-free. -/
def ipv6ScopeValid (l : List Char) : Bool :=
  match findSub ['%'] l with
  | Option.none => ipv6Valid l
  | some i =>
    let scope := l.drop (i + 1)
    ipv6Valid (l.take i) && scope ≠ [] && '%' ∉ scope

/-- The IPvFuture shape `v<hex>+.<nonempty, newline-free>` accepted by
`_check_bracketed_host`'s regex. -/
def ipvFutureOk (host : List Char) : Bool :=
  match host with
  | 'v' :: rest =>
    let hexs := rest.takeWhile (fun c => (hexVal c).isSome)
    let after := rest.drop hexs.length
    hexs ≠ [] &&
      (match after with
       | '.' :: tail => tail ≠ [] && '\n' ∉ tail
       | _ => false)
  | _ => false

/-- `urllib.parse._check_bracketed_host` (CPython 3.11.4+): a bracketed host
must be an IPvFuture literal when it starts with `v`, and otherwise a valid
IPv6 address (an IPv4 address or anything unparsable raises `ValueError`). -/
def checkBracketedHost (host : List Char) : Bool :=
  match host with
  | 'v' :: _ => ipvFutureOk host
  | _ => ipv6ScopeValid host

/-- `netloc.partition('[')[2].partition(']')[0]`: the text between the first
`[` and the next `]`. -/
def bracketedHostOf (netloc : List Char) : List Char :=
  takeUntilSub [']'] ((afterFirstSub ['['] netloc).getD [])

/-- The two `ValueError` conditions of `urlsplit` on the netloc: unbalanced
square brackets, or balanced brackets whose bracketed host fails
`_check_bracketed_host`. -/
def urlparseRaises (netloc : List Char) : Bool :=
  bracketBad netloc ||
    (('[' ∈ netloc && ']' ∈ netloc) && !checkBracketedHost (bracketedHostOf netloc))

/-- `urlparse(url).netloc` for the embedded pipeline. -/
def netlocOf (url : String) : List Char :=
  (netlocSplit (dropScheme (cleanUrl url.toList))).1

/-- What remains of the URL after removing scheme and netloc. -/
def urlRest (url : String) : List Char :=
  (netlocSplit (dropScheme (cleanUrl url.toList))).2

/-- `urlparse(url).path`: the rest of the URL up to the first `#` or `?`. -/
def pathOf (url : String) : List Char :=
  (urlRest url).takeWhile (fun c => !(c = '#' || c = '?'))

/-- `urlparse(url).query`: between the first `?` (after any fragment strip)
and the first `#`. -/
def queryOf (url : String) : List Char :=
  ((urlRest url).takeWhile (fun c => !(c = '#'))).dropWhile (fun c => !(c = '?'))
    |>.drop 1

/-! ## `SharePointAccess._parse_url` (sharepoint-access.py, lines 42-82) -/

/-- The marker `"/sites/"` used by both parsing strategies. -/
def sitesPre : List Char := ['/', 's', 'i', 't', 'e', 's', '/']

/-- The substring `"id="` searched for in the raw URL. -/
def idMark : List Char := ['i', 'd', '=']

/-- Path-segment strategy (lines 56-68): split the decoded path on
`"/sites/"`; the first following segment is the site name, the remainder the
item path. -/
def pathDerived (url : String) : List Char × List Char :=
  let fp := unquoteL (pathOf url)
  if containsSub sitesPre fp then
    match pySplit1 sitesPre fp with
    | [_, p1] =>
      match pySplit1 ['/'] p1 with
      | [a] => (sitesPre ++ a, [])
      | [a, b] => (sitesPre ++ a, '/' :: b)
      | _ => ([], fp)
    | _ => ([], fp)
  else ([], fp)

/-- The value Python extracts for the `id` strategy (lines 72-74):
the text between the first occurrence of `"id="` anywhere in the raw URL and
the next `"id="` or `"&"`, percent-decoded.  `none` when `"id="` does not
occur in the URL. -/
def idExtract (url : String) : Option (List Char) :=
  match afterFirstSub idMark url.toList with
  | none => none
  | some r => some (unquoteL (takeUntilSub ['&'] (takeUntilSub idMark r)))

/-- The `id`-strategy override (lines 72-80): when the extracted value decodes
to a `/sites/`-prefixed path with at least four `'/'`-split components, it
supplies the site path and item path. -/
def idOverride (url : String) : Option (List Char × List Char) :=
  match idExtract url with
  | none => none
  | some d =>
    if sitesPre.isPrefixOf d then
      match pySplitMax ['/'] 4 d with
      | _ :: p1 :: p2 :: p3 :: rest =>
        some ('/' :: p1 ++ '/' :: p2, '/' :: joinSlash (p3 :: rest))
      | _ => none
    else none

/-- `SharePointAccess._parse_url` (lines 42-82): hostname, site path and item
path of a sharing URL.  `none` embeds the `ValueError` that
`urllib.parse.urlparse` raises on the netloc: unbalanced square brackets, or
(CPython 3.11.4+) balanced brackets around a host that is neither a valid
IPv6/scoped-IPv6 address nor an IPvFuture literal. -/
def parse_url (url : String) : Option (String × String × String) :=
  if urlparseRaises (netlocOf url) then none
  else
    let si := match idOverride url with
      | some p => p
      | none => pathDerived url
    some ((netlocOf url).asString, si.1.asString, si.2.asString)

/-- Modelled from the spec: the value of the `id` parameter of the URL's query
component proper (split the query on `'&'`, take the first `id=`-keyed
binding, percent-decode its value).  This is the claims' notion of "the id
query parameter", stated independently of the code's raw-substring search. -/
def specIdQueryParam (url : String) : Option String :=
  (pySplitMax ['&'] (queryOf url).length (queryOf url)).findSome?
    (fun kv =>
      if idMark.isPrefixOf kv then some (unquoteL (kv.drop 3)).asString
      else none)

/-- Modelled from the spec: site path and item path that a `/sites/`-prefixed
canonical path determines (first two components form the site path, the rest
the item path). -/
def specCanonicalSplit (d : String) : String × String :=
  match pySplitMax ['/'] 4 d.toList with
  | _ :: p1 :: p2 :: p3 :: rest =>
    (('/' :: p1 ++ '/' :: p2).asString, ('/' :: joinSlash (p3 :: rest)).asString)
  | _ => ("", d)

/-! ## Claims C1 and C10: sharing-URL parsing -/

/-- C1, counterexample to the general precedence rule: in this URL the `id`
query parameter carries the `/sites/`-prefixed canonical path
`/sites/S/Lib/b.docx`, which per the claim should determine item path
`/Lib/b.docx`; but because the raw-substring search finds the earlier
`id=` inside `vid=`, `_parse_url` keeps the path-segment result
`/vid=1/b.docx`. -/
theorem C1_counterexample :
    parse_url "https://co.sharepoint.com/sites/S/vid=1/b.docx?id=%2Fsites%2FS%2FLib%2Fb.docx"
      = some ("co.sharepoint.com", "/sites/S", "/vid=1/b.docx")
    ∧ specIdQueryParam "https://co.sharepoint.com/sites/S/vid=1/b.docx?id=%2Fsites%2FS%2FLib%2Fb.docx"
      = some "/sites/S/Lib/b.docx"
    ∧ specCanonicalSplit "/sites/S/Lib/b.docx" = ("/sites/S", "/Lib/b.docx")
    ∧ ("/vid=1/b.docx" : String) ≠ "/Lib/b.docx" := by
  refine ⟨by decide, by decide, by decide, by decide⟩

/-- C1 (amended): the two concrete example URLs parse exactly as the claim
states, and the precedence rule holds in the form the code implements it:
whenever the value following the first occurrence of the substring `id=`
in the URL decodes to a `/sites/`-prefixed path with a library segment
(`idOverride` fires), that value alone determines the site path and the item
path of the result. -/
theorem C1_sharing_url_parsing :
    parse_url "https://co.sharepoint.com/sites/S/Shared%20Documents/a/b.docx"
      = some ("co.sharepoint.com", "/sites/S", "/Shared Documents/a/b.docx")
    ∧ parse_url "https://co.sharepoint.com/sites/S/Shared%20Documents/a/b.docx?id=%2Fsites%2FS%2FLib%2Fa%2Fb.docx"
      = some ("co.sharepoint.com", "/sites/S", "/Lib/a/b.docx")
    ∧ ∀ (url h s i : String) (s' i' : List Char),
        parse_url url = some (h, s, i) → idOverride url = some (s', i') →
        s = s'.asString ∧ i = i'.asString := by
  refine ⟨by decide, by decide, ?_⟩
  intro url h s i s' i' hp hov
  unfold parse_url at hp
  split at hp
  · exact absurd hp (by simp)
  · rw [hov] at hp
    simp only [Option.some.injEq, Prod.mk.injEq] at hp
    exact ⟨hp.2.1.symm, hp.2.2.symm⟩

/-- C1, witness: the precedence part of `C1_sharing_url_parsing` applied to
the claim's second concrete URL. -/
theorem C1_witness :
    ("/sites/S" : String) = ("/sites/S".toList).asString
    ∧ ("/Lib/a/b.docx" : String) = ("/Lib/a/b.docx".toList).asString :=
  C1_sharing_url_parsing.2.2
    "https://co.sharepoint.com/sites/S/Shared%20Documents/a/b.docx?id=%2Fsites%2FS%2FLib%2Fa%2Fb.docx"
    "co.sharepoint.com" "/sites/S" "/Lib/a/b.docx"
    "/sites/S".toList "/Lib/a/b.docx".toList (by decide) (by decide)

/-- Fidelity of the embedded `urlsplit` raise conditions (checked against
CPython 3.11.6): balanced brackets raise unless the bracketed host is a valid
IPv6 address (optionally scoped), an IPv4-mapped IPv6 address, or an
IPvFuture literal; a bare name, a bracketed IPv4 address, and an empty or
duplicated scope raise. -/
theorem parse_url_bracketed_host_check :
    parse_url "http://[abc]" = none
    ∧ parse_url "http://[1.2.3.4]/x" = none
    ∧ parse_url "http://[::1%]/x" = none
    ∧ parse_url "http://[1::2::3]/x" = none
    ∧ (parse_url "https://[::1]/sites/S/Lib/a.docx").isSome
    ∧ (parse_url "https://[::ffff:1.2.3.4]/sites/S/Lib/a.docx").isSome
    ∧ (parse_url "https://[v1.x]/sites/S/Lib/a.docx").isSome
    ∧ (parse_url "https://[fe80::1%eth0]/sites/S/Lib/a.docx").isSome := by
  decide

/-- C10, counterexample to totality: on the input `http://[`,
`urllib.parse.urlparse` raises `ValueError("Invalid IPv6 URL")`, so
`_parse_url` propagates an exception instead of returning a triple; the
embedding returns `none` there. -/
theorem C10_counterexample : parse_url "http://[" = none := by decide

/-- C10 (amended): `_parse_url` returns a (hostname, site path, item path)
triple on every input whose authority component is ASCII and triggers neither
`ValueError` of `urlsplit` — no unbalanced square bracket, and any bracketed
host a valid IPv6/scoped-IPv6 address or IPvFuture literal (CPython 3.11.4+
raises on the rest, e.g. `http://[abc]`) — and an extracted `id` value whose
decoded form does not start with `/sites/` leaves the path-segment parse
result unchanged. -/
theorem C10_parse_url_total :
    (∀ url : String, urlparseRaises (netlocOf url) = false →
      (netlocOf url).all (fun c => c.toNat < 128) →
      (parse_url url).isSome)
    ∧ ∀ (url h s i : String),
        parse_url url = some (h, s, i) →
        (∀ d, idExtract url = some d → sitesPre.isPrefixOf d = false) →
        s = (pathDerived url).1.asString ∧ i = (pathDerived url).2.asString := by
  constructor
  · intro url hb _
    unfold parse_url
    rw [hb]
    simp
  · intro url h s i hp hid
    unfold parse_url at hp
    split at hp
    · exact absurd hp (by simp)
    · have hov : idOverride url = none := by
        unfold idOverride
        cases hie : idExtract url with
        | none => rfl
        | some d => simp [hid d hie]
      rw [hov] at hp
      simp only [Option.some.injEq, Prod.mk.injEq] at hp
      exact ⟨hp.2.1.symm, hp.2.2.symm⟩

/-- C10, witness: both parts of `C10_parse_url_total` discharged on concrete
URLs (`https://h.example/x`, whose parse has no usable `id` value). -/
theorem C10_witness :
    (parse_url "https://h.example/x").isSome
    ∧ ("" : String) = (pathDerived "https://h.example/x").1.asString
    ∧ ("/x" : String) = (pathDerived "https://h.example/x").2.asString :=
  ⟨C10_parse_url_total.1 "https://h.example/x" (by decide) (by decide),
   C10_parse_url_total.2 "https://h.example/x" "h.example" "" "/x" (by decide)
     (fun d hd => absurd hd (by
       rw [show idExtract "https://h.example/x" = none from by decide]
       simp))⟩

/-! ## build.py: archive builder -/

/-- Boolean string-prefix test (used for the git pathspec filter of
`git ls-files <path>`). -/
def strStarts (p f : String) : Bool := p.toList.isPrefixOf f.toList

/-- `ls_files` (build.py lines 67-76): the tracked files matching a path
filter, non-blank lines only, sorted. -/
def lsFiles (tracked : List String) (path : String) : List String :=
  (tracked.filter (fun f => strStarts path f && pyStrip f ≠ "")).mergeSort
    (fun a b => decide (a ≤ b))

/-- Split a character list on `'/'` (every occurrence), keeping empty
segments. -/
def splitSlash : List Char → List (List Char)
  | [] => [[]]
  | c :: cs =>
    if c = '/' then [] :: splitSlash cs
    else
      match splitSlash cs with
      | h :: t => (c :: h) :: t
      | [] => [[c]]

/-- `pathlib.PurePath.parts` for relative paths: slash-separated components
with empty and `.` components dropped. -/
def pathParts (f : String) : List (List Char) :=
  (splitSlash f.toList).filter (fun p => decide (p ≠ []) && decide (p ≠ ['.']))

/-- The body of `discover_skills`' loop (build.py lines 144-147): a tracked
path of the form `skills/<name>/SKILL.md` (at least three components, third
equal to `SKILL.md`) yields the skill name. -/
def skillFromParts : List (List Char) → Option String
  | _ :: p1 :: p2 :: _ => if p2 = "SKILL.md".toList then some p1.asString else none
  | _ => none

/-- `discover_skills` (build.py lines 140-148): skill names found among the
tracked files, deduplicated and sorted. -/
def discoverSkills (tracked : List String) : List String :=
  (((lsFiles tracked "skills/").filterMap
      (fun f => skillFromParts (pathParts f))).dedup).mergeSort
    (fun a b => decide (a ≤ b))

/-- The pathspec `skills/<name>/` used by `build_skill`. -/
def skillPathspec (name : String) : String := "skills/" ++ name ++ "/"

/-- Outcome of `build_skill` (build.py lines 108-137): whether the
zero-tracked-files warning was printed, whether the archive file was written,
and the (source path, rewritten archive path) entries. -/
structure SkillBuild where
  warned : Bool
  archiveWritten : Bool
  entries : List (String × String)
  deriving Repr, DecidableEq

/-- `build_skill`: with no tracked files it warns and writes nothing;
otherwise it writes one zip whose internal paths have the `skills/<name>/`
directory rewritten to `<name>/`. -/
def buildSkill (tracked : List String) (name : String) : SkillBuild :=
  let files := lsFiles tracked (skillPathspec name)
  if files = [] then { warned := true, archiveWritten := false, entries := [] }
  else
    { warned := false, archiveWritten := true,
      entries := files.map (fun g =>
        (g, name ++ "/" ++ (g.toList.drop (skillPathspec name).length).asString)) }

/-- Archive path of a single-skill zip under the output directory. -/
def skillZipPath (name : String) : String := "dist/skills/" ++ name ++ ".zip"

/-- Failure of the build run: `format_size` calls `Path.stat()` on an archive
path; on an absent file this raises `FileNotFoundError`. -/
inductive BuildErr
  | statMissing (p : String)
  deriving Repr, DecidableEq

/-- The per-skill loop of `main` (build.py lines 217-220), starting from a
fresh output directory: `build_skill` then `format_size` on the returned
path. -/
def buildLoop (tracked : List String) : List String → Except BuildErr (List String)
  | [] => .ok []
  | n :: ns =>
    if (buildSkill tracked n).archiveWritten then
      (buildLoop tracked ns).map (fun r => skillZipPath n :: r)
    else .error (.statMissing (skillZipPath n))

/-- `main` without `--list` (build.py lines 195-234): the full-distribution
zip, then one zip per discovered skill, each followed by `format_size`. -/
def mainRun (version : String) (tracked : List String) :
    Except BuildErr (List String) :=
  (buildLoop tracked (discoverSkills tracked)).map
    (fun r => ("dist/claude-code-skills-" ++ version ++ ".zip") :: r)

/-- Git-tracked paths as `git ls-files` reports them: no empty and no `.`
path components (so `PurePath.parts` is exactly the slash-split). -/
def NormalizedTracked (tracked : List String) : Prop :=
  ∀ f ∈ tracked, [] ∉ splitSlash f.toList ∧ ['.'] ∉ splitSlash f.toList

instance : DecidablePred NormalizedTracked := fun _ =>
  inferInstanceAs (Decidable (∀ _ ∈ _, _ ∧ _))

/-! Helper lemmas about `splitSlash`. -/

theorem splitSlash_ne_nil (l : List Char) : splitSlash l ≠ [] := by
  cases l with
  | nil => simp [splitSlash]
  | cons c cs =>
    unfold splitSlash
    by_cases hc : c = '/'
    · simp [hc]
    · simp only [hc, if_false]
      cases splitSlash cs <;> simp

theorem joinSlash_splitSlash (l : List Char) : joinSlash (splitSlash l) = l := by
  induction l with
  | nil => simp [splitSlash, joinSlash]
  | cons c cs ih =>
    unfold splitSlash
    by_cases hc : c = '/'
    · subst hc
      simp only [if_pos rfl]
      cases hsp : splitSlash cs with
      | nil => exact absurd hsp (splitSlash_ne_nil cs)
      | cons h t =>
        rw [hsp] at ih
        cases t <;> simp_all [joinSlash]
    · simp only [hc, if_false]
      cases hsp : splitSlash cs with
      | nil => exact absurd hsp (splitSlash_ne_nil cs)
      | cons h t =>
        rw [hsp] at ih
        cases t <;> simp_all [joinSlash]

theorem splitSlash_no_slash (l : List Char) : ∀ p ∈ splitSlash l, '/' ∉ p := by
  induction l with
  | nil => simp [splitSlash]
  | cons c cs ih =>
    unfold splitSlash
    by_cases hc : c = '/'
    · simp only [hc, if_pos rfl]
      intro p hp
      rcases List.mem_cons.mp hp with h | h
      · simp [h]
      · exact ih p h
    · simp only [hc, if_false]
      cases hsp : splitSlash cs with
      | nil => exact absurd hsp (splitSlash_ne_nil cs)
      | cons h t =>
        intro p hp
        rcases List.mem_cons.mp hp with hh | hh
        · subst hh
          intro hmem
          rcases List.mem_cons.mp hmem with h1 | h1
          · exact hc h1.symm
          · exact ih h (hsp ▸ List.mem_cons_self h t) h1
        · exact ih p (hsp ▸ List.mem_cons.mpr (Or.inr hh))

theorem slash_concat_inj {x y : List Char} :
    ∀ {a b : List Char}, '/' ∉ a → '/' ∉ b →
      a ++ '/' :: x = b ++ '/' :: y → a = b ∧ x = y := by
  intro a
  induction a with
  | nil =>
    intro b ha hb h
    cases b with
    | nil => simpa using h
    | cons d bs =>
      simp only [List.nil_append, List.cons_append, List.cons.injEq] at h
      exact absurd (h.1 ▸ List.mem_cons_self d bs) (h.1 ▸ hb)
  | cons c as ih =>
    intro b ha hb h
    cases b with
    | nil =>
      simp only [List.cons_append, List.nil_append, List.cons.injEq] at h
      exact absurd (h.1 ▸ List.mem_cons_self c as) (h.1 ▸ ha)
    | cons d bs =>
      simp only [List.cons_append, List.cons.injEq] at h
      have ha' : '/' ∉ as := fun hm => ha (List.mem_cons.mpr (Or.inr hm))
      have hb' : '/' ∉ bs := fun hm => hb (List.mem_cons.mpr (Or.inr hm))
      obtain ⟨heq, hxy⟩ := ih ha' hb' h.2
      exact ⟨by rw [h.1, heq], hxy⟩

/-- Every discovered skill has `skills/<name>/SKILL.md` among the tracked
files, hence a nonempty tracked-file list for its pathspec. -/
theorem discovered_skill_files_ne_nil {tracked : List String} {s : String}
    (hn : NormalizedTracked tracked) (hs : s ∈ discoverSkills tracked) :
    lsFiles tracked (skillPathspec s) ≠ [] := by
  unfold discoverSkills at hs
  rw [List.mem_mergeSort, List.mem_dedup, List.mem_filterMap] at hs
  obtain ⟨f, hf, hsk⟩ := hs
  unfold lsFiles at hf
  rw [List.mem_mergeSort, List.mem_filter] at hf
  obtain ⟨hft, hcond⟩ := hf
  have hstart : strStarts "skills/" f = true := by
    cases h1 : strStarts "skills/" f <;> simp [h1] at hcond
    rfl
  have hstrip : pyStrip f ≠ "" := by
    cases h2 : decide (pyStrip f ≠ "") <;> simp [h2] at hcond
    · exact of_decide_eq_true h2
  -- pathParts f is the raw slash-split, by normalization
  have hpp : pathParts f = splitSlash f.toList := by
    unfold pathParts
    rw [List.filter_eq_self]
    intro p hp
    obtain ⟨h1, h2⟩ := hn f hft
    simp only [Bool.and_eq_true, decide_eq_true_eq]
    exact ⟨fun he => h1 (he ▸ hp), fun he => h2 (he ▸ hp)⟩
  rw [hpp] at hsk
  -- decompose the split
  cases hsp : splitSlash f.toList with
  | nil => exact absurd hsp (splitSlash_ne_nil _)
  | cons p0 t0 =>
    rw [hsp] at hsk
    cases t0 with
    | nil => exact absurd hsk (by simp [skillFromParts])
    | cons p1 t1 =>
      cases t1 with
      | nil => exact absurd hsk (by simp [skillFromParts])
      | cons p2 t2 =>
        rw [show skillFromParts (p0 :: p1 :: p2 :: t2)
              = if p2 = "SKILL.md".toList then some p1.asString else none from rfl] at hsk
        by_cases h2 : p2 = "SKILL.md".toList
        · rw [if_pos h2] at hsk
          simp only [Option.some.injEq] at hsk
          -- reconstruct f from its parts
          have hjoin : f.toList = p0 ++ '/' :: (p1 ++ '/' :: joinSlash ("SKILL.md".toList :: t2)) := by
            conv_lhs => rw [← joinSlash_splitSlash f.toList]
            rw [hsp, h2]
            rfl
          have hpre : "skills/".toList <+: f.toList :=
            List.isPrefixOf_iff_prefix.mp hstart
          obtain ⟨tail, htail⟩ := hpre
          have heq2 : "skills".toList ++ '/' :: tail
              = p0 ++ '/' :: (p1 ++ '/' :: joinSlash ("SKILL.md".toList :: t2)) := by
            rw [← hjoin, ← htail]
            rfl
          have hp0 : '/' ∉ p0 :=
            splitSlash_no_slash f.toList p0 (by rw [hsp]; exact List.mem_cons_self _ _)
          obtain ⟨hp0eq, htaileq⟩ := slash_concat_inj (by decide) hp0 heq2
          apply List.ne_nil_of_mem (a := f)
          unfold lsFiles
          rw [List.mem_mergeSort, List.mem_filter]
          refine ⟨hft, ?_⟩
          simp only [Bool.and_eq_true, decide_eq_true_eq]
          refine ⟨?_, hstrip⟩
          unfold strStarts
          rw [List.isPrefixOf_iff_prefix]
          have hslist : s.toList = p1 := by
            rw [← hsk]
            exact List.toList_asString p1
          have hps : (skillPathspec s).toList = "skills/".toList ++ s.toList ++ ['/'] := rfl
          have hfl : f.toList = "skills/".toList ++ (s.toList ++ '/' :: joinSlash ("SKILL.md".toList :: t2)) := by
            rw [← htail, htaileq, hslist]
          rw [hps, hfl]
          exact ⟨joinSlash ("SKILL.md".toList :: t2), by simp⟩
        · rw [if_neg h2] at hsk
          exact Option.noConfusion hsk

/-- The per-skill loop succeeds as soon as every name in it has a nonempty
tracked-file list. -/
theorem buildLoop_ok {tracked : List String} :
    ∀ names : List String,
      (∀ n ∈ names, lsFiles tracked (skillPathspec n) ≠ []) →
      ∃ outs, buildLoop tracked names = Except.ok outs := by
  intro names
  induction names with
  | nil => exact fun _ => ⟨[], rfl⟩
  | cons n ns ih =>
    intro h
    have hn := h n (List.mem_cons_self _ _)
    have hwritten : (buildSkill tracked n).archiveWritten = true := by
      simp only [buildSkill]
      rw [if_neg hn]
    obtain ⟨outs, houts⟩ := ih (fun m hm => h m (List.mem_cons.mpr (Or.inr hm)))
    refine ⟨skillZipPath n :: outs, ?_⟩
    simp only [buildLoop, hwritten, if_true, houts, Except.map]

/-- C2: a skill whose tracked-file list is empty makes `build_skill` print the
warning and write no archive (never raising), and — because every discovered
skill necessarily has its `SKILL.md` among the tracked files — the full build
run over the discovered skills always completes without an uncaught
exception. -/
theorem C2_zero_file_skill_never_crashes :
    (∀ (tracked : List String) (name : String),
        lsFiles tracked (skillPathspec name) = [] →
        buildSkill tracked name
          = { warned := true, archiveWritten := false, entries := [] })
    ∧ ∀ (version : String) (tracked : List String), NormalizedTracked tracked →
        ∃ outs, mainRun version tracked = Except.ok outs := by
  constructor
  · intro tracked name h
    simp only [buildSkill]
    rw [if_pos h]
  · intro version tracked hn
    obtain ⟨outs, houts⟩ := buildLoop_ok (discoverSkills tracked)
      (fun n hmem => discovered_skill_files_ne_nil hn hmem)
    exact ⟨("dist/claude-code-skills-" ++ version ++ ".zip") :: outs,
      by simp [mainRun, houts, Except.map]⟩

/-- C2, witness: a skill name with no tracked files is skipped with a warning,
and a concrete repository state builds to completion. -/
theorem C2_witness :
    buildSkill ["README.md"] "agile-board"
        = { warned := true, archiveWritten := false, entries := [] }
    ∧ ∃ outs, mainRun "v1" ["README.md", "skills/agile-board/SKILL.md"]
        = Except.ok outs :=
  ⟨C2_zero_file_skill_never_crashes.1 ["README.md"] "agile-board" (by
      unfold lsFiles
      rw [show (["README.md"].filter (fun f =>
            strStarts (skillPathspec "agile-board") f && pyStrip f ≠ "")) = []
          from by decide]
      exact List.mergeSort_nil),
   C2_zero_file_skill_never_crashes.2 "v1"
     ["README.md", "skills/agile-board/SKILL.md"] (by decide)⟩

/-! ## convert-docs-to-md.py: document converter -/

/-- `DocumentConverter.SUPPORTED_FORMATS` (keys, lines 41-53). -/
def SUPPORTED_FORMATS : List String :=
  [".docx", ".doc", ".pdf", ".xlsx", ".xls", ".pptx", ".ppt", ".odt", ".rtf",
   ".html", ".htm"]

/-- The converter that a dispatch actually hands the file to first. -/
inductive Route
  | pandoc
  | pdftotext
  | openpyxl
  | pptxlib
  | unsupported
  deriving Repr, DecidableEq

/-- Converter dispatch: `convert_file` lines 126-136 select by extension;
`_convert_pdf` (lines 171-179) and `_convert_powerpoint` (lines 266-272) use
pandoc when available and their fallback otherwise, while `_convert_excel`
(lines 217-224) always uses openpyxl. -/
def route (pandocAvailable : Bool) (ext : String) : Route :=
  if ext ∈ [".docx", ".doc", ".odt", ".rtf", ".html", ".htm"] then .pandoc
  else if ext = ".pdf" then (if pandocAvailable then .pandoc else .pdftotext)
  else if ext ∈ [".xlsx", ".xls"] then .openpyxl
  else if ext ∈ [".pptx", ".ppt"] then (if pandocAvailable then .pandoc else .pptxlib)
  else .unsupported

/-! ### Excel conversion (`_convert_excel`, lines 217-264) -/

/-- An `openpyxl` cell value as seen by `sheet.values`. -/
inductive Cell
  | none
  | str (s : String)
  | int (n : Int)
  | bool (b : Bool)
  deriving Repr, DecidableEq

/-- Python truthiness of a cell value (`bool(cell)`). -/
def Cell.truthy : Cell → Bool
  | .none => false
  | .str s => decide (s ≠ "")
  | .int n => decide (n ≠ 0)
  | .bool b => b

/-- Python `str()` of a cell value. -/
def pyStrCell : Cell → String
  | .none => "None"
  | .str s => s
  | .int n => toString n
  | .bool b => if b then "True" else "False"

/-- Python `str(cell or "")` (lines 249 and 255). -/
def Cell.render (c : Cell) : String := if c.truthy then pyStrCell c else ""

/-- One Markdown table row: `"| " + " | ".join(...) + " |\n"`. -/
def rowMd (row : List Cell) : String :=
  "| " ++ String.intercalate " | " (row.map Cell.render) ++ " |\n"

/-- `" --- |" * n`. -/
def sepRow : Nat → String
  | 0 => ""
  | Nat.succ k => " --- |" ++ sepRow k

/-- The data-row loop (lines 253-255): each row after the header is written
exactly when `any(cell for cell in row)` holds. -/
def tableRows : List (List Cell) → String
  | [] => ""
  | r :: rs => (if r.any Cell.truthy then rowMd r else "") ++ tableRows rs

/-- One sheet (lines 236-257): heading, then either the empty-sheet marker or
header row, separator row, filtered data rows, and a blank line. -/
def sheetMd (name : String) (data : List (List Cell)) : String :=
  "## " ++ name ++ "\n\n" ++
    match data with
    | [] => "*Empty sheet*\n\n"
    | header :: rows =>
      rowMd header ++ "|" ++ sepRow header.length ++ "\n" ++ tableRows rows ++ "\n"

/-- The whole `.md` file written for a workbook (lines 230-257). -/
def excelMd (stem : String) (sheets : List (String × List (List Cell))) : String :=
  "# " ++ stem ++ "\n\n*Converted from Excel*\n\n---\n\n" ++
    String.join (sheets.map (fun p => sheetMd p.1 p.2))

/-- Modelled from the spec: a cell is non-empty when it holds a value (is
neither `None` nor the empty string). -/
def specNonEmptyCell : Cell → Bool
  | .none => false
  | .str s => decide (s ≠ "")
  | _ => true

/-! ### `convert_file` control flow (lines 88-136) -/

/-- What `convert_file` decides to do with one input. -/
inductive FileAction
  | notFound
  | unsupported
  | skipExisting
  | convert (r : Route)
  deriving Repr, DecidableEq

/-- The decision sequence of `convert_file`: existence check, supported-format
check, skip-if-output-exists check, then dispatch. -/
def convertFileAction (inputExists : Bool) (ext : String)
    (outputExists overwrite pandocAvailable : Bool) : FileAction :=
  if !inputExists then .notFound
  else if ext ∉ SUPPORTED_FORMATS then .unsupported
  else if outputExists && !overwrite then .skipExisting
  else .convert (route pandocAvailable ext)

/-- The boolean `convert_file` returns, given whether an attempted conversion
succeeds: skipping an existing output returns `True` (line 121). -/
def convertFileReturn (a : FileAction) (toolOk : Bool) : Bool :=
  match a with
  | .notFound => false
  | .unsupported => false
  | .skipExisting => true
  | .convert _ => toolOk

/-- Single-file mode exit code (`main`, lines 421-424). -/
def singleFileExit (success : Bool) : Nat := if success then 0 else 1

/-- Folder-mode loop body (`convert_folder`, lines 354-357): bump the success
or the failure counter. -/
def folderStep (counts : Nat × Nat) (success : Bool) : Nat × Nat :=
  if success then (counts.1 + 1, counts.2) else (counts.1, counts.2 + 1)

/-! ### Claim C3: pandoc-first preference -/

/-- C3, counterexample: `.xlsx` is a supported format, yet even with pandoc
available its conversion is handed to openpyxl, not pandoc —
`_convert_excel` never consults pandoc. -/
theorem C3_counterexample :
    ".xlsx" ∈ SUPPORTED_FORMATS
    ∧ route true ".xlsx" = Route.openpyxl
    ∧ Route.openpyxl ≠ Route.pandoc := by decide

/-- C3 (amended): with pandoc available every supported format except the
spreadsheet formats goes through pandoc; `.xlsx`/`.xls` always go to
openpyxl regardless of pandoc; and the pdf and presentation fallbacks
(pdftotext, python-pptx) are used exactly when pandoc is unavailable. -/
theorem C3_pandoc_first :
    (∀ ext ∈ SUPPORTED_FORMATS, ext ≠ ".xlsx" → ext ≠ ".xls" →
      route true ext = Route.pandoc)
    ∧ (∀ b, route b ".xlsx" = Route.openpyxl ∧ route b ".xls" = Route.openpyxl)
    ∧ route false ".pdf" = Route.pdftotext
    ∧ route false ".pptx" = Route.pptxlib
    ∧ route false ".ppt" = Route.pptxlib := by decide

/-- C3, witness: the pandoc-first part discharged at `.pdf`. -/
theorem C3_witness : route true ".pdf" = Route.pandoc :=
  C3_pandoc_first.1 ".pdf" (by decide) (by decide) (by decide)

/-! ### Claim C4: spreadsheet rows -/

/-- C4: a sheet whose only data row is `[0, None]` — a row holding the
non-empty value `0` — is rendered with no data row at all, because the code's
`any(cell for cell in row)` tests Python truthiness, not emptiness; rows of
zeros are silently dropped, contradicting the code's own `Skip empty rows`
comment. -/
theorem C4_zero_row_dropped :
    sheetMd "Sheet1" [[Cell.str "A", Cell.str "B"], [Cell.int 0, Cell.none]]
      = "## Sheet1\n\n| A | B |\n| --- | --- |\n\n"
    ∧ [Cell.int 0, Cell.none].any specNonEmptyCell = true
    ∧ tableRows [[Cell.int 0, Cell.none]] = "" := by decide

/-! ### Claim C9: skipping an existing output counts as success -/

/-- C9: when the input exists, its format is supported, the target `.md`
already exists and overwrite is off, `convert_file` performs no conversion and
returns `True`; single-file mode exits `0` and folder mode bumps only the
success count. -/
theorem C9_skip_existing_is_success :
    ∀ (ext : String) (pandocAvailable toolOk : Bool),
      ext ∈ SUPPORTED_FORMATS →
      convertFileAction true ext true false pandocAvailable = FileAction.skipExisting
      ∧ convertFileReturn FileAction.skipExisting toolOk = true
      ∧ singleFileExit (convertFileReturn FileAction.skipExisting toolOk) = 0
      ∧ ∀ counts : Nat × Nat,
          folderStep counts (convertFileReturn FileAction.skipExisting toolOk)
            = (counts.1 + 1, counts.2) := by
  intro ext p toolOk h
  refine ⟨?_, rfl, rfl, fun counts => rfl⟩
  simp [convertFileAction, h]

/-- C9, witness: discharged at `.docx`. -/
theorem C9_witness :
    convertFileAction true ".docx" true false true = FileAction.skipExisting
    ∧ convertFileReturn FileAction.skipExisting false = true
    ∧ singleFileExit (convertFileReturn FileAction.skipExisting false) = 0
    ∧ ∀ counts : Nat × Nat,
        folderStep counts (convertFileReturn FileAction.skipExisting false)
          = (counts.1 + 1, counts.2) :=
  C9_skip_existing_is_success ".docx" true false (by decide)

/-! ## setup.py: agile-board setup wizard -/

/-- Python `int()` digit grammar: nonempty digits, single underscores allowed
only between digits. -/
def pyIntCore (l : List Char) : Option Nat :=
  if l = [] then Option.none
  else if l.head? = some '_' ∨ l.getLast? = some '_' then Option.none
  else if (l.zip l.tail).any (fun p => p.1 = '_' && p.2 = '_') then Option.none
  else if l.all (fun c => c.isDigit || c = '_') then
    some ((l.filter Char.isDigit).foldl (fun acc c => acc * 10 + (c.toNat - 48)) 0)
  else Option.none

/-- Python `int(s)` for a decimal string: strip whitespace, optional sign,
digits; `none` embeds the `ValueError`. -/
def pyInt (s : String) : Option Int :=
  match (pyStrip s).toList with
  | '+' :: r => (pyIntCore r).map (fun n => (n : Int))
  | '-' :: r => (pyIntCore r).map (fun n => -(n : Int))
  | r => (pyIntCore r).map (fun n => (n : Int))

/-- Python list indexing `xs[k]` on a list of length `n`: nonnegative indexes
below `n`, negative indexes counted from the end; `none` embeds the
`IndexError`. -/
def pyIndex (n : Nat) (k : Int) : Option Nat :=
  if 0 ≤ k then (if k < (n : Int) then some k.toNat else Option.none)
  else if 0 ≤ (n : Int) + k then some ((n : Int) + k).toNat
  else Option.none

/-- The numbered-selection idiom of `setup_zenhub` (lines 299-306 and
340-348): `items[int(choice) - 1]` with `ValueError`/`IndexError` caught and
turned into a fatal `sys.exit(1)`.  `some i` is the index actually selected
from the `n` presented items, `none` the fatal `Invalid choice` exit. -/
def selectChoice (n : Nat) (choice : String) : Option Nat :=
  (pyInt (pyStrip choice)).bind (fun c => pyIndex n (c - 1))

/-! ### Claim C5: out-of-range choices -/

/-- C5: with three items presented (`Select workspace (1-3)`), the
out-of-range entries `0` and `-1` are not fatal: Python's negative indexing
silently selects the last and the second item, while entries past the end or
non-numeric entries are fatal as the claim says. -/
theorem C5_out_of_range_choice :
    selectChoice 3 "0" = some 2
    ∧ selectChoice 3 "-1" = some 1
    ∧ selectChoice 3 "4" = Option.none
    ∧ selectChoice 3 "abc" = Option.none := by decide

/-! ### Claim C6: declining the overwrite prompt -/

/-- `input().strip().lower()` applied to the overwrite answer (line 71). -/
def answerNorm (s : String) : String :=
  ((pyStrip s).toList.map Char.toLower).asString

/-- The ways the config-file phase of `main` can leave the process. -/
inductive WizardExit
  | cancelled
  | eofNoForce
  | completed
  deriving Repr, DecidableEq

/-- Exit status of each `WizardExit`: declining the prompt is `sys.exit(0)`,
EOF without `--force` is `sys.exit(1)`, completion returns normally. -/
def exitCode : WizardExit → Nat
  | .cancelled => 0
  | .eofNoForce => 1
  | .completed => 0

/-- The overwrite gate of `main` (setup.py lines 64-78) combined with the
unconditional config write of lines 127-129: `prior` is the existing config
file content (`none` if the file is absent), `answer` the interactive reply
(`none` for EOF), `newCfg` the serialized config the wizard writes when it
proceeds. -/
def configPhase (prior : Option String) (force : Bool) (answer : Option String)
    (newCfg : String) : WizardExit × Option String :=
  match prior with
  | Option.none => (.completed, some newCfg)
  | some old =>
    if force then (.completed, some newCfg)
    else
      match answer with
      | Option.none => (.eofNoForce, some old)
      | some a =>
        if answerNorm a = "y" then (.completed, some newCfg)
        else (.cancelled, some old)

/-- C6, counterexample: the answer `Y` is not the string `y`, yet the wizard
does not exit 0 with the file unchanged — it lowercases the reply, proceeds,
and overwrites the config. -/
theorem C6_counterexample :
    configPhase (some "old") false (some "Y") "new"
      = (WizardExit.completed, some "new")
    ∧ ("Y" : String) ≠ "y"
    ∧ (some "new" : Option String) ≠ some "old" := by decide

/-- C6 (amended): when the config exists, `--force` is off and the reply does
not normalize (strip + lowercase) to `y`, the wizard exits with status 0 and
the config file content is exactly what it was. -/
theorem C6_decline_leaves_config :
    ∀ (old a newCfg : String) (force : Bool), force = false →
      answerNorm a ≠ "y" →
      configPhase (some old) force (some a) newCfg
        = (WizardExit.cancelled, some old)
      ∧ exitCode WizardExit.cancelled = 0 := by
  intro old a newCfg force hf ha
  subst hf
  exact ⟨by simp [configPhase, ha], rfl⟩

/-- C6, witness: discharged at the reply `n`. -/
theorem C6_witness :
    configPhase (some "cfg") false (some "n") "newcfg"
      = (WizardExit.cancelled, some "cfg")
    ∧ exitCode WizardExit.cancelled = 0 :=
  C6_decline_leaves_config "cfg" "n" "newcfg" false rfl (by decide)

/-! ### Claim C7: permission wildcard append -/

/-- The permission wildcard for a board type (line 514). -/
def wildcardFor (boardType : String) : String := "mcp__" ++ boardType ++ "__*"

/-- Lines 515-516: append the wildcard unless it is already present. -/
def addWildcard (w : String) (allow : List String) : List String :=
  if w ∈ allow then allow else allow ++ [w]

/-- `update_claude_settings` restricted to its effect on the
`permissions.allow` list (lines 491-527); a missing file or missing
`permissions`/`allow` key starts from the empty list. -/
def updateSettingsAllow (boardType : String) (prior : Option (List String)) :
    List String :=
  addWildcard (wildcardFor boardType) (prior.getD [])

/-- C7, counterexample: on a prior state whose allow list already holds the
wildcard twice (e.g. hand-edited), running `update_claude_settings` leaves
both copies — the wildcard does not occur exactly once afterwards. -/
theorem C7_counterexample :
    "mcp__zenhub__*" ∈ ["mcp__zenhub__*", "mcp__zenhub__*"]
    ∧ (updateSettingsAllow "zenhub"
        (some ["mcp__zenhub__*", "mcp__zenhub__*"])).count "mcp__zenhub__*" = 2
    ∧ (2 : Nat) ≠ 1 := by decide

/-- C7 (amended): the update never adds a duplicate — a list already holding
the wildcard is returned unchanged, a list holding it at most once holds it
exactly once afterwards, and a second run returns exactly the first run's
list. -/
theorem C7_wildcard_idempotent :
    ∀ (bt : String) (prior : Option (List String)),
      (wildcardFor bt ∈ prior.getD [] →
        updateSettingsAllow bt prior = prior.getD [])
      ∧ updateSettingsAllow bt (some (updateSettingsAllow bt prior))
          = updateSettingsAllow bt prior
      ∧ ((prior.getD []).count (wildcardFor bt) ≤ 1 →
          (updateSettingsAllow bt prior).count (wildcardFor bt) = 1) := by
  intro bt prior
  set w := wildcardFor bt with hw
  set l := prior.getD [] with hl
  refine ⟨fun hmem => by simp [updateSettingsAllow, addWildcard, ← hw, ← hl, hmem], ?_, ?_⟩
  · by_cases hmem : w ∈ l
    · simp [updateSettingsAllow, addWildcard, ← hw, ← hl, hmem]
    · simp [updateSettingsAllow, addWildcard, ← hw, ← hl, hmem]
  · intro hcount
    by_cases hmem : w ∈ l
    · have h1 : 1 ≤ l.count w := List.one_le_count_iff.mpr hmem
      simp [updateSettingsAllow, addWildcard, ← hw, ← hl, hmem]
      omega
    · have h0 : l.count w = 0 := List.count_eq_zero.mpr hmem
      simp [updateSettingsAllow, addWildcard, ← hw, ← hl, hmem, List.count_append, h0]

/-- C7, witness: discharged on a prior list holding the wildcard once. -/
theorem C7_witness :
    updateSettingsAllow "zenhub" (some ["mcp__zenhub__*"]) = ["mcp__zenhub__*"]
    ∧ (updateSettingsAllow "zenhub" (some ["mcp__zenhub__*"])).count "mcp__zenhub__*" = 1 :=
  ⟨(C7_wildcard_idempotent "zenhub" (some ["mcp__zenhub__*"])).1 (by decide),
   (C7_wildcard_idempotent "zenhub" (some ["mcp__zenhub__*"])).2.2 (by decide)⟩

/-! ### Claim C8: unimplemented integration kinds -/

/-- An MCP server descriptor (command, argument list, environment). -/
structure McpConfig where
  command : String
  args : List String
  env : List (String × String)
  deriving Repr, DecidableEq

/-- The descriptor `setup_zenhub` builds (lines 377-391). -/
def zenhubMcp (apiToken workspaceId : String) : McpConfig :=
  { command := "npx",
    args := ["-y", "mcp-remote", "https://api.zenhub.com/mcp", "--header",
             "Authorization:$\x7bAPI_TOKEN\x7d", "--header",
             "X-zh-workspace:" ++ workspaceId],
    env := [("API_TOKEN", apiToken)] }

/-- The board-specific part of the project-local config record. -/
inductive ConfigRecord
  | zenhubCfg (workspaceId repositoryId organizationId pipelineId
      pipelineName : String) (labels : List String)
  | jiraCfg (jiraUrl projectKey : String)
  | linearCfg (teamId workspaceId : String)
  deriving Repr, DecidableEq

/-- Python `s.rstrip('/')`. -/
def pyRstripSlash (s : String) : String :=
  ((s.toList.reverse.dropWhile (· = '/')).reverse).asString

/-- Python `s.upper()` on ASCII. -/
def pyUpper (s : String) : String := (s.toList.map Char.toUpper).asString

/-- `setup_jira` (lines 403-421): placeholder record, no MCP config. -/
def setupJira (jiraUrl projectKey : String) : ConfigRecord × Option McpConfig :=
  (.jiraCfg (pyRstripSlash jiraUrl) (pyUpper projectKey), Option.none)

/-- `setup_linear` (lines 424-440): placeholder record, no MCP config. -/
def setupLinear (teamId workspaceId : String) : ConfigRecord × Option McpConfig :=
  (.linearCfg teamId workspaceId, Option.none)

/-- `setup_zenhub` with its interactive/API resolution already done
(lines 393-400): full record plus the MCP descriptor. -/
def setupZenhub (apiToken workspaceId repositoryId organizationId pipelineId
    pipelineName : String) (labels : List String) :
    ConfigRecord × Option McpConfig :=
  (.zenhubCfg workspaceId repositoryId organizationId pipelineId pipelineName
      labels,
   some (zenhubMcp apiToken workspaceId))

/-- The board types `setup.py` accepts. -/
inductive BoardType
  | zenhub
  | jira
  | linear
  deriving Repr, DecidableEq

/-- The board type's string name. -/
def btName : BoardType → String
  | .zenhub => "zenhub"
  | .jira => "jira"
  | .linear => "linear"

/-- Every value `setup_zenhub`/`setup_jira`/`setup_linear` can obtain from
arguments, prompts, or API calls. -/
structure WizardInputs where
  apiToken : String
  workspaceId : String
  repositoryId : String
  organizationId : String
  pipelineId : String
  pipelineName : String
  labels : List String
  jiraUrl : String
  projectKey : String
  teamId : String
  linearWorkspaceId : String
  deriving Repr, DecidableEq

/-- The board-type dispatch of `main` (lines 113-124). -/
def setupResult (bt : BoardType) (i : WizardInputs) :
    ConfigRecord × Option McpConfig :=
  match bt with
  | .zenhub => setupZenhub i.apiToken i.workspaceId i.repositoryId
      i.organizationId i.pipelineId i.pipelineName i.labels
  | .jira => setupJira i.jiraUrl i.projectKey
  | .linear => setupLinear i.teamId i.linearWorkspaceId

/-- The `mcpServers` map of one project entry in `~/.claude.json`. -/
abbrev McpServers := List (String × McpConfig)

/-- The `projects` map of `~/.claude.json`. -/
abbrev ClaudeProjects := List (String × McpServers)

/-- Dictionary assignment `servers[boardType] = mcp`. -/
def setServer (k : String) (v : McpConfig) : McpServers → McpServers
  | [] => [(k, v)]
  | (k', v') :: rest =>
    if k' = k then (k, v) :: rest else (k', v') :: setServer k v rest

/-- `update_claude_json` (lines 443-488) restricted to the `projects` map:
skip when the file is absent, otherwise ensure the project entry exists and
assign the board type's MCP server. -/
def updateClaudeJson (projectPath btn : String) (mcp : McpConfig) :
    Option ClaudeProjects → Option ClaudeProjects
  | Option.none => Option.none
  | some projects =>
    let withProj :=
      if projects.any (fun q => q.1 = projectPath) then projects
      else projects ++ [(projectPath, [])]
    some (withProj.map (fun q =>
      if q.1 = projectPath then (q.1, setServer btn mcp q.2) else q))

/-- The two home-directory files the wizard can touch. -/
structure HomeState where
  claudeJson : Option ClaudeProjects
  settingsAllow : Option (List String)
  deriving Repr, DecidableEq

/-- The two project-local files the wizard can touch. -/
structure ProjectState where
  configFile : Option (String × ConfigRecord)
  gitignore : Option String
  deriving Repr, DecidableEq

/-- The `.gitignore` entry appended for the generated config (line 533). -/
def gitignoreEntry : String := ".claude/agile-board-config.json"

/-- `update_gitignore` (lines 530-546): append the entry if the file exists
and does not already contain it. -/
def updateGitignore : Option String → Option String
  | Option.none => Option.none
  | some content =>
    if containsSub gitignoreEntry.toList content.toList then some content
    else some (content ++ "\n# Agile board config (project-specific)\n"
      ++ gitignoreEntry ++ "\n")

/-- Steps 1-4 of `main` (lines 126-141): write the project config, then — only
when an MCP config was produced — update `~/.claude.json` and
`~/.claude/settings.json`, and finally update `.gitignore`. -/
def runWizardEffects (bt : BoardType) (i : WizardInputs) (projectPath : String)
    (ps : ProjectState) (hs : HomeState) : ProjectState × HomeState :=
  let r := setupResult bt i
  let ps1 : ProjectState := { ps with configFile := some (btName bt, r.1) }
  let hs1 : HomeState :=
    match r.2 with
    | some m =>
      { hs with claudeJson := updateClaudeJson projectPath (btName bt) m hs.claudeJson }
    | Option.none => hs
  let hs2 : HomeState :=
    match r.2 with
    | some _ =>
      { hs1 with settingsAllow := some (updateSettingsAllow (btName bt) hs1.settingsAllow) }
    | Option.none => hs1
  ({ ps1 with gitignore := updateGitignore ps1.gitignore }, hs2)

/-- C8: for the unimplemented kinds (jira, linear) the wizard writes only the
placeholder config record — no MCP config is produced, and both
`~/.claude.json` and the `~/.claude/settings.json` permission list are left
exactly as they were. -/
theorem C8_placeholder_no_side_effects :
    ∀ (bt : BoardType) (i : WizardInputs) (projectPath : String)
      (ps : ProjectState) (hs : HomeState),
      bt = BoardType.jira ∨ bt = BoardType.linear →
      (runWizardEffects bt i projectPath ps hs).2.claudeJson = hs.claudeJson
      ∧ (runWizardEffects bt i projectPath ps hs).2.settingsAllow = hs.settingsAllow
      ∧ (runWizardEffects bt i projectPath ps hs).1.configFile
          = some (btName bt, (setupResult bt i).1)
      ∧ (setupResult bt i).2 = Option.none := by
  intro bt i pp ps hs hbt
  rcases hbt with h | h <;> subst h <;>
    simp [runWizardEffects, setupResult, setupJira, setupLinear]

/-- C8, witness: discharged for jira on a concrete state. -/
theorem C8_witness :
    (runWizardEffects BoardType.jira
        ⟨"", "", "", "", "", "", [], "https://x.atlassian.net/", "proj", "", ""⟩
        "/home/u/proj" ⟨Option.none, some ""⟩ ⟨some [], some []⟩).2.claudeJson
      = (⟨some [], some []⟩ : HomeState).claudeJson
    ∧ (runWizardEffects BoardType.jira
        ⟨"", "", "", "", "", "", [], "https://x.atlassian.net/", "proj", "", ""⟩
        "/home/u/proj" ⟨Option.none, some ""⟩ ⟨some [], some []⟩).2.settingsAllow
      = (⟨some [], some []⟩ : HomeState).settingsAllow
    ∧ (runWizardEffects BoardType.jira
        ⟨"", "", "", "", "", "", [], "https://x.atlassian.net/", "proj", "", ""⟩
        "/home/u/proj" ⟨Option.none, some ""⟩ ⟨some [], some []⟩).1.configFile
      = some (btName BoardType.jira,
          (setupResult BoardType.jira
            ⟨"", "", "", "", "", "", [], "https://x.atlassian.net/", "proj", "", ""⟩).1)
    ∧ (setupResult BoardType.jira
        ⟨"", "", "", "", "", "", [], "https://x.atlassian.net/", "proj", "", ""⟩).2
      = Option.none :=
  C8_placeholder_no_side_effects BoardType.jira
    ⟨"", "", "", "", "", "", [], "https://x.atlassian.net/", "proj", "", ""⟩
    "/home/u/proj" ⟨Option.none, some ""⟩ ⟨some [], some []⟩ (Or.inl rfl)

end SkillsRepo
